import Mathlib

/-!
A shallow embedding of the xcrab tiling window manager (the layout tree in
`src/x11/client.rs`, the event dispatch in `src/main.rs`, the keybind and
config model in `src/config.rs`, and the control-socket action parser in
`src/msg_listener.rs`), together with theorems checking the specification's
claims against it.

Modelling conventions:
* `u16`/`u32` arithmetic is `Nat` arithmetic reduced modulo `2^16`/`2^32`
  at exactly the operations the Rust source performs on machine integers
  (release-mode wrapping semantics; debug builds would panic at the same
  inputs, and neither behaviour saturates).
* X-server side effects are recorded as a trace (`List XRequest`); values
  the X server would supply (window ids for newly created frames, the root
  geometry) are passed in as parameters.
* Fallible code returns `Except OpError`; `OpError.panicked` models a Rust
  panic (`unwrap`/`unreachable!`), `OpError.clientDoesntExist` models
  `XcrabError::ClientDoesntExist`, and `OpError.outOfFuel` is the fuel
  artefact of embedding the source's unbounded loops and recursion.
* `HashMap`s (`clients`) and the `SlotMap` arena (`rects`) are modelled as
  association lists with fresh integer keys; `keys().next()` is the head of
  the association list (the source's iteration order is unspecified).
-/

namespace Xcrab

/-- Wrapping 16-bit addition, as performed on Rust `u16` values. -/
def u16Add (a b : Nat) : Nat := (a + b) % 65536

/-- Wrapping 16-bit subtraction, as performed on Rust `u16` values
(for `a b < 65536`). -/
def u16Sub (a b : Nat) : Nat := (a + 65536 - b) % 65536

/-- Wrapping 16-bit multiplication, as performed on Rust `u16` values. -/
def u16Mul (a b : Nat) : Nat := (a * b) % 65536

/-- Wrapping 32-bit subtraction, as performed on Rust `u32` values
(for `a b < 2^32`). -/
def u32Sub (a b : Nat) : Nat := (a + 4294967296 - b) % 4294967296

/-- X window handle (opaque 32-bit id). -/
abbrev Window := Nat

/-- Stable arena key (`XcrabKey`, a slotmap key in the source). -/
abbrev XcrabKey := Nat

/-- `Direction` from `src/x11/client.rs`. -/
inductive Direction
  | up
  | down
  | left
  | right
deriving DecidableEq

/-- `Directionality` from `src/x11/client.rs`. -/
inductive Directionality
  | horizontal
  | vertical
deriving DecidableEq

/-- `Dimensions` from `src/x11/client.rs`: x, y, width, height as `u16`. -/
structure Dimensions where
  x : Nat
  y : Nat
  width : Nat
  height : Nat
deriving DecidableEq

instance : Inhabited Dimensions := ⟨⟨0, 0, 0, 0⟩⟩

/-- The resolved configuration values used by the layout code
(`XcrabConfig` in `src/config.rs`; optional fields with getter defaults). -/
def DEFAULT_BORDER_SIZE : Nat := 5

/-- Default gap size from `src/config.rs`. -/
def DEFAULT_GAP_SIZE : Nat := 20

/-- `XcrabConfig` from `src/config.rs` (the numeric fields the layout engine
reads; each is optional in the TOML file). -/
structure XcrabConfig where
  border_size : Option Nat := some DEFAULT_BORDER_SIZE
  gap_size : Option Nat := some DEFAULT_GAP_SIZE
  outer_gap_size : Option Nat := none
deriving DecidableEq

instance : Inhabited XcrabConfig := ⟨{}⟩

/-- `XcrabConfig::border_size()`. -/
def XcrabConfig.borderSize (c : XcrabConfig) : Nat :=
  c.border_size.getD DEFAULT_BORDER_SIZE

/-- `XcrabConfig::gap_size()`. -/
def XcrabConfig.gapSize (c : XcrabConfig) : Nat :=
  c.gap_size.getD DEFAULT_GAP_SIZE

/-- `XcrabConfig::outer_gap_size()` (falls back to the gap size). -/
def XcrabConfig.outerGapSize (c : XcrabConfig) : Nat :=
  c.outer_gap_size.getD c.gapSize

/-- `Dimensions::split` from `src/x11/client.rs` (lines 46-78): divide a
rectangle into `count` sub-rectangles along `direction`, with `gap` pixels
between neighbours.  All arithmetic is `u16` arithmetic exactly as in the
source; `count ≥ 1` at every call site (the `count = 0` case would panic at
the `%`/`/` in Rust and is irrelevant here). -/
def Dimensions.split (gap : Nat) (self : Dimensions) (direction : Directionality)
    (count : Nat) : List Dimensions :=
  match direction with
  | .horizontal =>
    let amountForWindows := u16Sub self.width (u16Mul gap (u16Sub count 1))
    let excess := amountForWindows % count
    let windowSize := amountForWindows / count
    let windowStride := u16Add windowSize gap
    (List.range count).map (fun i =>
      { self with
        x := u16Add (u16Add self.x (u16Mul i windowStride)) (if i < excess then 1 else 0)
        width := windowSize })
  | .vertical =>
    let amountForWindows := u16Sub self.height (u16Mul gap (u16Sub count 1))
    let excess := amountForWindows % count
    let windowSize := amountForWindows / count
    let windowStride := u16Add windowSize gap
    (List.range count).map (fun i =>
      { self with
        y := u16Add (u16Add self.y (u16Mul i windowStride)) (if i < excess then 1 else 0)
        height := windowSize })

/-- `FramedWindow` from `src/x11/client.rs`: the WM-created frame and the
application's client window. -/
structure FramedWindow where
  frame : Window
  win : Window
deriving DecidableEq

/-- The inner width/height computed by `FramedWindow::configure`
(`src/x11/client.rs` lines 644-647): `props.width.map(|v| v - inset)` with
`inset = 2 * border_size`, in `u32` arithmetic. -/
def configureInner (cfg : XcrabConfig) (v : Option Nat) : Option Nat :=
  let inset := 2 * cfg.borderSize
  v.map (fun w => u32Sub w inset)

/-- `BreadError` from the `breadx` crate, as far as `may_not_exist` inspects
it: an X protocol error carries an error code; every other variant is
opaque. -/
inductive BreadError
  | xProtocol (errorCode : Nat)
  | other (tag : Nat)
deriving DecidableEq

/-- `may_not_exist` from `src/x11/client.rs` (lines 619-629). -/
def mayNotExist (res : Except BreadError Unit) : Except BreadError Unit :=
  match res with
  | .error (.xProtocol 3) => .ok ()
  | v => v

/-- `RectangleContents` from `src/x11/client.rs`: a node is either a pane
(ordered children plus a split direction) or a client leaf. -/
inductive RectangleContents
  | pane (children : List XcrabKey) (directionality : Directionality)
  | client (frame : FramedWindow)
deriving DecidableEq

/-- `Rectangle` from `src/x11/client.rs`: a layout-tree node. -/
structure Rectangle where
  parent : XcrabKey
  cachedDimensions : Dimensions
  contents : RectangleContents
deriving DecidableEq

/-- `XcrabWindowManager` from `src/x11/client.rs`.  `clients` (a `HashMap`)
and the `rects` slotmap arena are association lists; `nextKey` models the
arena's supply of fresh keys. -/
structure XcrabWindowManager where
  clients : List (Window × XcrabKey)
  rects : List (XcrabKey × Rectangle)
  nextKey : XcrabKey
  focused : Option Window
deriving DecidableEq

instance : Inhabited XcrabWindowManager := ⟨⟨[], [], 0, none⟩⟩

/-- `XcrabWindowManager::new()`. -/
def XcrabWindowManager.new : XcrabWindowManager := ⟨[], [], 0, none⟩

/-- Failure modes of the embedded operations. -/
inductive OpError
  | clientDoesntExist
  | panicked
  | outOfFuel
deriving DecidableEq

/-- The X requests the layout code issues, recorded as a trace. -/
inductive XRequest
  | unframe (f : FramedWindow)
  | killClient (f : FramedWindow)
  | configure (f : FramedWindow) (dims : Dimensions) (focusedWin : Window)
  | mapWindow (f : FramedWindow)
  | setInputFocus (focus : Option Window)
deriving DecidableEq

/-- Replace the value of the first entry with key `k` in an association
list (a slotmap/hashmap in-place update; keys are unique in every reachable
state). -/
def setAssoc {β : Type} (k : Nat) (v : β) : List (Nat × β) → List (Nat × β)
  | [] => []
  | e :: rest => if e.1 = k then (k, v) :: rest else e :: setAssoc k v rest

namespace XcrabWindowManager

/-- `self.rects.get(k)`. -/
def lookupRect (s : XcrabWindowManager) (k : XcrabKey) : Option Rectangle :=
  (s.rects.find? (fun e => e.1 == k)).map (·.2)

/-- `self.rects[k] = r` (mutation through `get_mut`). -/
def setRect (s : XcrabWindowManager) (k : XcrabKey) (r : Rectangle) :
    XcrabWindowManager :=
  { s with rects := setAssoc k r s.rects }

/-- Mutation of a rect's `parent` field through `get_mut`. -/
def setParent (s : XcrabWindowManager) (k : XcrabKey) (p : XcrabKey) :
    XcrabWindowManager :=
  match s.lookupRect k with
  | some r => s.setRect k { r with parent := p }
  | none => s

/-- `self.rects.insert(r)`: allocate a fresh key. -/
def insertRect (s : XcrabWindowManager) (r : Rectangle) :
    XcrabKey × XcrabWindowManager :=
  (s.nextKey, { s with rects := s.rects ++ [(s.nextKey, r)], nextKey := s.nextKey + 1 })

/-- `self.rects.insert_with_key(f)`. -/
def insertRectWithKey (s : XcrabWindowManager) (f : XcrabKey → Rectangle) :
    XcrabKey × XcrabWindowManager :=
  (s.nextKey,
   { s with rects := s.rects ++ [(s.nextKey, f s.nextKey)], nextKey := s.nextKey + 1 })

/-- `self.rects.remove(k)`. -/
def removeRect (s : XcrabWindowManager) (k : XcrabKey) : XcrabWindowManager :=
  { s with rects := s.rects.filter (fun e => e.1 != k) }

/-- `self.clients.get(&w)`. -/
def lookupClient (s : XcrabWindowManager) (w : Window) : Option XcrabKey :=
  (s.clients.find? (fun e => e.1 == w)).map (·.2)

/-- `self.clients.insert(w, k)` (`HashMap::insert`: replace or append). -/
def insertClient (s : XcrabWindowManager) (w : Window) (k : XcrabKey) :
    XcrabWindowManager :=
  if (s.clients.find? (fun e => e.1 == w)).isSome then
    { s with clients := setAssoc w k s.clients }
  else
    { s with clients := s.clients ++ [(w, k)] }

/-- `self.clients.remove(&w)`. -/
def removeClientEntry (s : XcrabWindowManager) (w : Window) : XcrabWindowManager :=
  { s with clients := s.clients.filter (fun e => e.1 != w) }

/-- `self.clients.contains_key(&win)` (`has_client`). -/
def hasClient (s : XcrabWindowManager) (w : Window) : Bool :=
  (s.lookupClient w).isSome

/-- `self.clients.keys().copied().next()`: the first window in the map's
iteration order (head of the association list in this model). -/
def firstClientWindow (s : XcrabWindowManager) : Option Window :=
  (s.clients.map (·.1)).head?

end XcrabWindowManager

open XcrabWindowManager

mutual

/-- `XcrabWindowManager::update_rectangle` from `src/x11/client.rs`
(lines 470-521): write the dimensions into the node's cache, then either
recurse over a pane's children with the dimensions split along the pane's
directionality, or issue a `configure` for a client leaf (which reads
`self.focused.unwrap()`).  The source recurses through boxed futures; the
embedding threads explicit fuel. -/
def updateRectangle (cfg : XcrabConfig) (fuel : Nat) (s : XcrabWindowManager)
    (key : XcrabKey) (dimensions : Option Dimensions) :
    Except OpError (XcrabWindowManager × List XRequest) :=
  match fuel with
  | 0 => .error .outOfFuel
  | fuel + 1 =>
    match s.lookupRect key with
    | none => .error .clientDoesntExist
    | some rect =>
      let dims := dimensions.getD rect.cachedDimensions
      let s1 := s.setRect key { rect with cachedDimensions := dims }
      match rect.contents with
      | .pane children dir =>
        if children.isEmpty then .ok (s1, [])
        else
          updateChildren cfg fuel s1
            (children.zip (dims.split cfg.gapSize dir children.length))
      | .client cl =>
        match s1.focused with
        | none => .error .panicked
        | some f => .ok (s1, [.configure cl dims f])
termination_by structural fuel

/-- The loop over `pane.children.zip(new_dimensions)` inside
`update_rectangle`. -/
def updateChildren (cfg : XcrabConfig) (fuel : Nat) (s : XcrabWindowManager)
    (tasks : List (XcrabKey × Dimensions)) :
    Except OpError (XcrabWindowManager × List XRequest) :=
  match fuel with
  | 0 => .error .outOfFuel
  | fuel + 1 =>
    match tasks with
    | [] => .ok (s, [])
    | (k, d) :: rest => do
      let (s1, t1) ← updateRectangle cfg fuel s k (some d)
      let (s2, t2) ← updateChildren cfg fuel s1 rest
      .ok (s2, t1 ++ t2)
termination_by structural fuel

end

/-- `XcrabWindowManager::insert_pane_above` from `src/x11/client.rs`
(lines 153-201): wrap `rectKey`'s node in a fresh pane with the given
directionality, splicing the pane into the parent (or making it the new
self-parented root).  The source returns `Option` and every caller
`.unwrap()`s it; internal `unwrap`s panic, so all failures are `panicked`
from the caller's point of view. -/
def insertPaneAbove (s : XcrabWindowManager) (rectKey : XcrabKey)
    (directionality : Directionality) :
    Except OpError (XcrabKey × XcrabWindowManager) :=
  match s.lookupRect rectKey with
  | none => .error .panicked
  | some rect =>
    let parentKey := rect.parent
    let newPane : Rectangle :=
      ⟨parentKey, rect.cachedDimensions, .pane [rectKey] directionality⟩
    if parentKey = rectKey then
      -- the given node was the root node: the new pane is its own parent
      let (k, s) := s.insertRectWithKey (fun key => { newPane with parent := key })
      .ok (k, s.setParent rectKey k)
    else
      let (k, s) := s.insertRect newPane
      match s.lookupRect parentKey with
      | none => .error .panicked
      | some parentRect =>
        match parentRect.contents with
        | .client _ => .error .panicked
        | .pane children pdir =>
          match children.findIdx? (fun v => v == rectKey) with
          | none => .error .panicked
          | some index =>
            let s := s.setRect parentKey
              ⟨parentRect.parent, parentRect.cachedDimensions,
               .pane (children.set index k) pdir⟩
            .ok (k, s.setParent rectKey k)

/-- The `loop` in `add_client_direction` (`src/x11/client.rs` lines
303-324): walk up the `parent` chain from `childKey` until a pane with the
target directionality is found, wrapping the root via `insert_pane_above`
when the walk reaches the self-parented top.  Returns the found (or
created) pane's key, the child on the path used for the insertion index,
and the (possibly modified) state. -/
def findPaneLoop (fuel : Nat) (s : XcrabWindowManager) (childKey : XcrabKey)
    (targetDirectionality : Directionality) :
    Except OpError (XcrabKey × XcrabKey × XcrabWindowManager) :=
  match fuel with
  | 0 => .error .outOfFuel
  | fuel + 1 =>
    match s.lookupRect childKey with
    | none => .error .panicked
    | some child =>
      let parentKey := child.parent
      if parentKey = childKey then
        (insertPaneAbove s childKey targetDirectionality).map
          (fun r => (r.1, childKey, r.2))
      else
        match s.lookupRect parentKey with
        | none => .error .panicked
        | some parent =>
          match parent.contents with
          | .client _ => .error .panicked
          | .pane _ d =>
            if d = targetDirectionality then .ok (parentKey, childKey, s)
            else findPaneLoop fuel s parentKey targetDirectionality

/-- `XcrabWindowManager::focus_update_map` (`src/x11/client.rs` lines
203-221): set `focused`, recompute geometry under `parentKey`, map the new
frame, publish focus. -/
def focusUpdateMap (cfg : XcrabConfig) (fuel : Nat) (s : XcrabWindowManager)
    (frame : FramedWindow) (parentKey : XcrabKey) :
    Except OpError (XcrabWindowManager × List XRequest) :=
  let s := { s with focused := some frame.win }
  (updateRectangle cfg fuel s parentKey none).map
    (fun r => (r.1, r.2 ++ [.mapWindow frame, .setInputFocus r.1.focused]))

/-- `XcrabWindowManager::add_first_client` (`src/x11/client.rs` lines
440-466).  `frameWin` is the X-allocated frame window id and `rootGeo` the
root window's geometry, both inputs the X server supplies. -/
def addFirstClient (cfg : XcrabConfig) (fuel : Nat) (s : XcrabWindowManager)
    (win : Window) (frameWin : Window) (rootGeo : Dimensions) :
    Except OpError (XcrabWindowManager × List XRequest) :=
  let fr : FramedWindow := ⟨frameWin, win⟩
  let og := cfg.outerGapSize
  let dims : Dimensions :=
    { x := u16Add rootGeo.x og
      y := u16Add rootGeo.y og
      width := u16Sub rootGeo.width (u16Mul 2 og)
      height := u16Sub rootGeo.height (u16Mul 2 og) }
  let (key, s) := s.insertRectWithKey (fun k => ⟨k, dims, .client fr⟩)
  let s := s.insertClient win key
  focusUpdateMap cfg fuel s fr key

/-- The `Up/Down ↦ Vertical`, `Left/Right ↦ Horizontal` mapping used by
both insertion paths. -/
def targetDirectionality : Direction → Directionality
  | .up | .down => .vertical
  | .left | .right => .horizontal

/-- `XcrabWindowManager::add_client_direction` (`src/x11/client.rs` lines
267-361). -/
def addClientDirection (cfg : XcrabConfig) (fuel : Nat) (s : XcrabWindowManager)
    (win : Window) (frameWin : Window) (direction : Direction)
    (rootGeo : Dimensions) :
    Except OpError (XcrabWindowManager × List XRequest) :=
  match s.focused with
  | none => addFirstClient cfg fuel s win frameWin rootGeo
  | some focused =>
    let fr : FramedWindow := ⟨frameWin, win⟩
    match s.lookupClient focused with
    | none => .error .clientDoesntExist
    | some focusedClientKey =>
      match findPaneLoop fuel s focusedClientKey (targetDirectionality direction) with
      | .error e => .error e
      | .ok (parentKey, childKey, s) =>
        let (newRectKey, s) := s.insertRect ⟨parentKey, default, .client fr⟩
        match s.lookupRect parentKey with
        | none => .error .panicked
        | some parentRect =>
          match parentRect.contents with
          | .client _ => .error .panicked
          | .pane children pdir =>
            match children.findIdx? (fun v => v == childKey) with
            | none => .error .panicked
            | some index =>
              let index :=
                match direction with
                | .down | .right => index + 1
                | .up | .left => index
              let s := s.setRect parentKey
                ⟨parentRect.parent, parentRect.cachedDimensions,
                 .pane (children.insertIdx index newRectKey) pdir⟩
              let s := s.insertClient win newRectKey
              focusUpdateMap cfg fuel s fr parentKey

/-- `XcrabWindowManager::add_client` (`src/x11/client.rs` lines 249-264):
tile to the right of the focused window. -/
def addClient (cfg : XcrabConfig) (fuel : Nat) (s : XcrabWindowManager)
    (win : Window) (frameWin : Window) (rootGeo : Dimensions) :
    Except OpError (XcrabWindowManager × List XRequest) :=
  addClientDirection cfg fuel s win frameWin .right rootGeo

/-- `XcrabWindowManager::add_client_direction_immediate`
(`src/x11/client.rs` lines 364-438). -/
def addClientDirectionImmediate (cfg : XcrabConfig) (fuel : Nat)
    (s : XcrabWindowManager) (win : Window) (frameWin : Window)
    (direction : Direction) (rootGeo : Dimensions) :
    Except OpError (XcrabWindowManager × List XRequest) :=
  match s.focused with
  | none => addFirstClient cfg fuel s win frameWin rootGeo
  | some focused =>
    let fr : FramedWindow := ⟨frameWin, win⟩
    match s.lookupClient focused with
    | none => .error .panicked
    | some focusedClientKey =>
      match s.lookupRect focusedClientKey with
      | none => .error .panicked
      | some focusedClient =>
        match s.lookupRect focusedClient.parent with
        | none => .error .panicked
        | some parentRect =>
          let parentPaneDir : Option Directionality :=
            match parentRect.contents with
            | .pane _ d => some d
            | .client _ => none
          let tdir := targetDirectionality direction
          let step : Except OpError (XcrabKey × XcrabWindowManager) :=
            if parentPaneDir = some tdir then .ok (focusedClient.parent, s)
            else insertPaneAbove s focusedClientKey tdir
          match step with
          | .error e => .error e
          | .ok (parentKey, s) =>
            let (newRectKey, s) := s.insertRect ⟨parentKey, default, .client fr⟩
            match s.lookupRect parentKey with
            | none => .error .panicked
            | some parentRect =>
              match parentRect.contents with
              | .client _ => .error .panicked
              | .pane children pdir =>
                match children.findIdx? (fun v => v == focusedClientKey) with
                | none => .error .panicked
                | some index =>
                  let index :=
                    match direction with
                    | .down | .right => index + 1
                    | .up | .left => index
                  let s := s.setRect parentKey
                    ⟨parentRect.parent, parentRect.cachedDimensions,
                     .pane (children.insertIdx index newRectKey) pdir⟩
                  let s := s.insertClient win newRectKey
                  focusUpdateMap cfg fuel s fr parentKey

/-- `XcrabWindowManager::remove_client` (`src/x11/client.rs` lines
527-563): unframe, unlink from the parent pane's children, delete from
`clients` and the arena, pick a new focus if the removed window was
focused, recompute geometry under the surviving parent.  A `.error
.panicked` models the source's `unwrap`/`unreachable!` panics (in
particular `unwrap_pane_mut` when the removed client's parent is itself,
i.e. the client is the self-parented root leaf). -/
def removeClient (cfg : XcrabConfig) (fuel : Nat) (s : XcrabWindowManager)
    (win : Window) : Except OpError (XcrabWindowManager × List XRequest) :=
  match s.lookupClient win with
  | none => .error .clientDoesntExist
  | some clientKey =>
    match s.lookupRect clientKey with
    | none => .error .panicked
    | some client =>
      match client.contents with
      | .pane _ _ => .error .panicked
      | .client fr =>
        let parentKey := client.parent
        match s.lookupRect parentKey with
        | none => .error .panicked
        | some parent =>
          match parent.contents with
          | .client _ => .error .panicked
          | .pane children pdir =>
            let s := s.setRect parentKey
              ⟨parent.parent, parent.cachedDimensions,
               .pane (children.filter (fun v => v != clientKey)) pdir⟩
            let s := s.removeClientEntry win
            let s := s.removeRect clientKey
            match s.focused with
            | none => .error .panicked
            | some f =>
              if f = win then
                let s := { s with focused := s.firstClientWindow }
                (updateRectangle cfg fuel s parentKey none).map
                  (fun r =>
                    (r.1, [.unframe fr, .setInputFocus s.focused] ++ r.2))
              else
                (updateRectangle cfg fuel s parentKey none).map
                  (fun r => (r.1, .unframe fr :: r.2))

/-- `XcrabWindowManager::destroy_focused_client` (`src/x11/client.rs`
lines 565-585): a no-op without a focused window; otherwise remember the
focused client's frame, remove the client, then kill the remembered
frame. -/
def destroyFocusedClient (cfg : XcrabConfig) (fuel : Nat)
    (s : XcrabWindowManager) :
    Except OpError (XcrabWindowManager × List XRequest) :=
  match s.focused with
  | none => .ok (s, [])
  | some focused =>
    match s.lookupClient focused with
    | none => .error .clientDoesntExist
    | some clientKey =>
      match s.lookupRect clientKey with
      | none => .error .panicked
      | some rect =>
        match rect.contents with
        | .pane _ _ => .error .panicked
        | .client fr =>
          (removeClient cfg fuel s focused).map
            (fun r => (r.1, r.2 ++ [.killClient fr]))

/-- `XcrabWindowManager::set_focus` (`src/x11/client.rs` lines 587-605). -/
def setFocus (cfg : XcrabConfig) (fuel : Nat) (s : XcrabWindowManager)
    (win : Window) : Except OpError (XcrabWindowManager × List XRequest) :=
  match s.lookupClient win with
  | none => .error .clientDoesntExist
  | some clientKey =>
    let s := { s with focused := some win }
    match s.lookupRect clientKey with
    | none => .error .panicked
    | some r =>
      (updateRectangle cfg fuel s r.parent none).map
        (fun u => (u.1, .setInputFocus (some win) :: u.2))

/-- `Keybind` from `src/config.rs`: a key character plus a modifier mask
(`KeyButMask`, modelled as its underlying bits). -/
structure Keybind where
  key : Char
  mods : Nat
deriving DecidableEq

/-- The `Event::KeyPress` arm of `process_event` (`src/main.rs` lines
270-280): process the keycode under the event's modifier state to a
character (the composition of `KeyboardState::process_keycode` and
`Key::as_char`, supplied as `processKeycode`), then evaluate every bind
whose `key` equals that character.  Returns the list of actions evaluated,
in iteration order. -/
def keyPressActions {A : Type} (processKeycode : Nat → Nat → Option Char)
    (binds : List (Keybind × A)) (detail : Nat) (state : Nat) : List A :=
  match processKeycode detail state with
  | none => []
  | some c => (binds.filter (fun b => b.1.key == c)).map (·.2)

/-- `ConfigureRequestEvent`, as far as the `Event::ConfigureRequest` arm of
`process_event` reads it. -/
structure ConfigureRequestEvent where
  window : Window
  x : Int
  y : Int
  width : Nat
  height : Nat
  borderWidth : Nat
  sibling : Window
  stackMode : Nat
deriving DecidableEq

/-- `ConfigureWindowParameters` (breadx): every field optional, `none`
meaning "leave unchanged". -/
structure ConfigureWindowParameters where
  x : Option Int := none
  y : Option Int := none
  width : Option Nat := none
  height : Option Nat := none
  borderWidth : Option Nat := none
  sibling : Option Window := none
  stackMode : Option Nat := none
deriving DecidableEq

/-- The `Event::ConfigureRequest` arm of `process_event` (`src/main.rs`
lines 234-259): copy the event's parameters, always dropping `sibling`;
if the target window is a known client additionally drop x/y/width/height;
forward the result. -/
def processConfigureRequest (s : XcrabWindowManager) (ev : ConfigureRequestEvent) :
    ConfigureWindowParameters :=
  let params : ConfigureWindowParameters :=
    { x := some ev.x
      y := some ev.y
      width := some ev.width
      height := some ev.height
      borderWidth := some ev.borderWidth
      sibling := none
      stackMode := some ev.stackMode }
  if s.hasClient ev.window then
    { params with x := none, y := none, width := none, height := none }
  else params

/-- Rust `str::split(' ')` on a list of characters: split at every space,
keeping empty pieces (`"".split(' ')` yields one empty piece). -/
def splitSpace : List Char → List (List Char)
  | [] => [[]]
  | c :: rest =>
    if c = ' ' then [] :: splitSpace rest
    else
      match splitSpace rest with
      | [] => [[c]]
      | t :: ts => (c :: t) :: ts

/-- Rust `str::eq_ignore_ascii_case` (on ASCII data); `Char.toLower` is
exactly ASCII lowercasing, matching `to_ascii_lowercase`. -/
def eqIgnoreAsciiCase (a b : List Char) : Bool :=
  a.map Char.toLower == b.map Char.toLower

/-- `Action` from `src/msg_listener.rs`. -/
inductive Action
  | close
deriving DecidableEq

/-- The `parts` computation in `Action::from_str` (`src/msg_listener.rs`
lines 92-96): split on `' '`, ASCII-lowercase each part, drop empty
parts. -/
def actionParts (s : String) : List (List Char) :=
  ((splitSpace s.data).map (fun p => p.map Char.toLower)).filter
    (fun p => !p.isEmpty)

/-- `Action::from_str` (`src/msg_listener.rs` lines 89-120).  The error
type is the display string of the produced `XcrabError::Custom`. -/
def Action.fromStr (s : String) : Except String Action :=
  match actionParts s with
  | [] => .error "No action provided"
  | p :: _ =>
    if eqIgnoreAsciiCase p "close".data then .ok .close
    else .error ("Unknown action: " ++ s)

/-- `Action::eval` (`src/msg_listener.rs` lines 124-137). -/
def Action.eval (cfg : XcrabConfig) (fuel : Nat) :
    Action → XcrabWindowManager → Except OpError (XcrabWindowManager × List XRequest)
  | .close, s => destroyFocusedClient cfg fuel s

/-- `on_recv` (`src/msg_listener.rs` lines 62-78): parse the received
string; on success evaluate the action (an evaluation error propagates out
of `on_recv` and aborts the event loop, so no response is produced);
finally report the parse result — which becomes the control-socket
response — over the result channel. -/
def onRecv (cfg : XcrabConfig) (fuel : Nat) (data : String)
    (s : XcrabWindowManager) :
    Except OpError (XcrabWindowManager × List XRequest × Except String Unit) :=
  match Action.fromStr data with
  | .ok a =>
    match a.eval cfg fuel s with
    | .ok (s1, tr) => .ok (s1, tr, .ok ())
    | .error e => .error e
  | .error e => .ok (s, [], .error e)

/-- The response body `listener_task` writes back to the control client
(`src/msg_listener.rs` lines 54-58): the error's display string, or zero
bytes on success. -/
def responseBody : Except String Unit → String
  | .ok _ => ""
  | .error e => e

/-- Modelled from the spec: "input is a whitespace-separated UTF-8 string".
Splitting on every whitespace character (not only `' '`), used to compare
the spec's tokenization with the source's. -/
def specSplitWhitespace : List Char → List (List Char)
  | [] => [[]]
  | c :: rest =>
    if c.isWhitespace then [] :: specSplitWhitespace rest
    else
      match specSplitWhitespace rest with
      | [] => [[c]]
      | t :: ts => (c :: t) :: ts

/-- Modelled from the spec: the first whitespace-separated token of the
input. -/
def specFirstToken (s : String) : Option (List Char) :=
  ((specSplitWhitespace s.data).filter (fun p => !p.isEmpty)).head?

/-! ## C1 -/

/-- C1: refuted by evaluation — `Dimensions::split` does NOT give the first
`U mod n` children one extra pixel of length.  Splitting width `L = 61`
among `n = 2` children with gap `g = 20` gives `U = L − g·(n−1) = 41`; the
claim requires child widths `[21, 20]` summing to `41`, but the code assigns
both children width `⌊U/n⌋ = 20` (sum `40 ≠ U`) and instead adds the
`+1` to the *x coordinate* of the first `U mod n` children
(non-cumulatively): the children start at `x = 1` and `x = 40`. -/
theorem c1_split_remainder_dropped :
    (Dimensions.split 20 ⟨0, 0, 61, 40⟩ .horizontal 2).map (·.width) = [20, 20] ∧
    20 + 20 ≠ 61 - 20 * (2 - 1) ∧
    (Dimensions.split 20 ⟨0, 0, 61, 40⟩ .horizontal 2).map (·.x) = [1, 40] := by
  decide

/-! ## C4 -/

/-- A keycode-to-symbol table for concrete keypress scenarios: every
keycode resolves to `'a'` regardless of the modifier state. -/
def c4processKeycode : Nat → Nat → Option Char := fun _ _ => some 'a'

/-- C4, counterexample: a bind for key `'a'` with modifier mask 4 (Control)
is evaluated on a `KeyPress` whose modifier state is 0 — the dispatch in
`process_event` never consults `bind.mods`, contradicting the claim that a
bind whose modifiers do not match the pressed modifiers is not
evaluated. -/
theorem c4_counterexample :
    keyPressActions c4processKeycode [({ key := 'a', mods := 4 }, 0)] 38 0 = [0] ∧
    (4 : Nat) ≠ 0 := by
  decide

/-- C4, amended: on a `KeyPress`, an action is evaluated for exactly those
entries `(bind, action)` of `Config.binds` whose `bind.key` equals the
symbol produced from the event's keycode under the event's modifier state —
the bind's own modifier mask is not consulted at dispatch. -/
theorem c4_keypress_dispatch {A : Type} (processKeycode : Nat → Nat → Option Char)
    (binds : List (Keybind × A)) (detail state : Nat) (a : A) :
    a ∈ keyPressActions processKeycode binds detail state ↔
      ∃ c, processKeycode detail state = some c ∧
        ∃ kb, (kb, a) ∈ binds ∧ kb.key = c := by
  unfold keyPressActions
  cases h : processKeycode detail state with
  | none => simp
  | some c =>
    simp only [List.mem_map, List.mem_filter, Option.some.injEq]
    constructor
    · rintro ⟨⟨kb, a'⟩, ⟨hm, hk⟩, rfl⟩
      exact ⟨c, rfl, kb, hm, by simpa using hk⟩
    · rintro ⟨c', rfl, kb, hm, rfl⟩
      exact ⟨(kb, a), ⟨hm, by simp⟩, rfl⟩

/-- C4, witness for the amended theorem. -/
theorem c4_keypress_dispatch_witness :
    0 ∈ keyPressActions c4processKeycode [({ key := 'a', mods := 4 }, 0)] 38 0 :=
  (c4_keypress_dispatch c4processKeycode [({ key := 'a', mods := 4 }, 0)] 38 0 0).mpr
    ⟨'a', rfl, { key := 'a', mods := 4 }, by simp, rfl⟩

/-! ## C5 -/

/-- C5, counterexample: the subtractions are plain wrapping `u16`/`u32`
subtractions, with no saturation and no rejection.  Splitting width 10 with
gap 20 among 2 children underflows (`10 − 20·1` wraps to 65526) and yields
child widths 32763 — far larger than the parent — and
`FramedWindow::configure` with width 5 and the default border 5 wraps
`5 − 10` to 4294967291. -/
theorem c5_counterexample :
    (Dimensions.split 20 ⟨0, 0, 10, 10⟩ .horizontal 2).map (·.width) =
      [32763, 32763] ∧
    ¬(32763 ≤ 10) ∧
    configureInner {} (some 5) = some 4294967291 ∧
    ¬(4294967291 ≤ 5) := by
  decide

/-- C5, amended: the subtractions are unchecked wrapping operations; they
stay in range (no underflow) exactly under the preconditions
`g·(n−1) ≤ L` and `2·border ≤ width`, in which case they compute the exact
differences: each child's length is `(L − g·(n−1)) / n ≤ L`, and the
configured inner width is `width − 2·border`. -/
theorem c5_no_underflow :
    (∀ (cfg : XcrabConfig) (d : Dimensions) (n : Nat),
       1 ≤ n → n < 65536 → d.width < 65536 → cfg.gapSize < 65536 →
       cfg.gapSize * (n - 1) ≤ d.width →
       ∀ e ∈ Dimensions.split cfg.gapSize d .horizontal n,
         e.width = (d.width - cfg.gapSize * (n - 1)) / n ∧ e.width ≤ d.width) ∧
    (∀ (cfg : XcrabConfig) (w : Nat),
       cfg.borderSize < 65536 → w < 4294967296 → 2 * cfg.borderSize ≤ w →
       configureInner cfg (some w) = some (w - 2 * cfg.borderSize)) := by
  constructor
  · intro cfg d n hn1 hn2 hw hg hgn e he
    simp only [Dimensions.split, List.mem_map, List.mem_range] at he
    obtain ⟨i, _, rfl⟩ := he
    have h1 : u16Sub n 1 = n - 1 := by unfold u16Sub; omega
    have h2 : u16Mul cfg.gapSize (n - 1) = cfg.gapSize * (n - 1) := by
      unfold u16Mul
      exact Nat.mod_eq_of_lt (by omega)
    have h3 : u16Sub d.width (cfg.gapSize * (n - 1)) =
        d.width - cfg.gapSize * (n - 1) := by unfold u16Sub; omega
    refine ⟨by simp [h1, h2, h3], ?_⟩
    simp only [h1, h2, h3]
    exact le_trans (Nat.div_le_self _ _) (Nat.sub_le _ _)
  · intro cfg w hb hw hbw
    simp only [configureInner, u32Sub, Option.map_some']
    congr 1
    omega

/-- C5, witness for the amended theorem at the spec's scenario-2 numbers
(width 1880, two children, default gap 20, default border 5). -/
theorem c5_no_underflow_witness :
    (∀ e ∈ Dimensions.split (XcrabConfig.gapSize {}) ⟨0, 0, 1880, 1040⟩
        .horizontal 2,
       e.width = (Dimensions.width ⟨0, 0, 1880, 1040⟩ -
         XcrabConfig.gapSize {} * (2 - 1)) / 2 ∧
       e.width ≤ Dimensions.width ⟨0, 0, 1880, 1040⟩) ∧
    configureInner {} (some 930) = some (930 - 2 * XcrabConfig.borderSize {}) :=
  ⟨c5_no_underflow.1 {} ⟨0, 0, 1880, 1040⟩ 2 (by decide) (by decide) (by decide)
      (by decide) (by decide),
   c5_no_underflow.2 {} 930 (by decide) (by decide) (by decide)⟩

/-! ## C6 -/

/-- C6: on a `ConfigureRequest`, the forwarded parameters always have
`sibling` stripped; when the target is a known client, `x`, `y`, `width`
and `height` are stripped as well (so the WM's layout for it is untouched),
and for an unknown window they pass through from the event. -/
theorem c6_configure_request (s : XcrabWindowManager)
    (ev : ConfigureRequestEvent) :
    (processConfigureRequest s ev).sibling = none ∧
    (s.hasClient ev.window = true →
      (processConfigureRequest s ev).x = none ∧
      (processConfigureRequest s ev).y = none ∧
      (processConfigureRequest s ev).width = none ∧
      (processConfigureRequest s ev).height = none) ∧
    (s.hasClient ev.window = false →
      (processConfigureRequest s ev).x = some ev.x ∧
      (processConfigureRequest s ev).y = some ev.y ∧
      (processConfigureRequest s ev).width = some ev.width ∧
      (processConfigureRequest s ev).height = some ev.height) ∧
    (processConfigureRequest s ev).borderWidth = some ev.borderWidth ∧
    (processConfigureRequest s ev).stackMode = some ev.stackMode := by
  cases h : s.hasClient ev.window <;> simp [processConfigureRequest, h]

/-- A one-client manager state for concrete scenarios: window 5 is managed
(frame 6). -/
def c6exampleState : XcrabWindowManager :=
  ⟨[(5, 0)], [(0, ⟨0, ⟨0, 0, 100, 100⟩, .client ⟨6, 5⟩⟩)], 1, some 5⟩

/-- A configure request from managed window 5. -/
def c6exampleEvent : ConfigureRequestEvent := ⟨5, 7, 8, 300, 200, 2, 9, 1⟩

/-- C6, witness: for a known client's request, position/size and sibling
are all stripped. -/
theorem c6_configure_request_witness :
    (processConfigureRequest c6exampleState c6exampleEvent).sibling = none ∧
    (processConfigureRequest c6exampleState c6exampleEvent).x = none ∧
    (processConfigureRequest c6exampleState c6exampleEvent).y = none ∧
    (processConfigureRequest c6exampleState c6exampleEvent).width = none ∧
    (processConfigureRequest c6exampleState c6exampleEvent).height = none :=
  ⟨(c6_configure_request c6exampleState c6exampleEvent).1,
   (c6_configure_request c6exampleState c6exampleEvent).2.1 (by decide)⟩

/-! ## C7 -/

instance {ε α : Type} [DecidableEq ε] [DecidableEq α] : DecidableEq (Except ε α) :=
  fun a b =>
  match a, b with
  | .ok u, .ok v =>
    if h : u = v then isTrue (by rw [h]) else isFalse (by simp [h])
  | .error e, .error f =>
    if h : e = f then isTrue (by rw [h]) else isFalse (by simp [h])
  | .ok _, .error _ => isFalse (by simp)
  | .error _, .ok _ => isFalse (by simp)

/-- C7: `may_not_exist` maps an X protocol error with code 3 (`BadWindow`)
to success and leaves every other result — success or an error with any
other code or kind — unchanged. -/
theorem c7_may_not_exist (r : Except BreadError Unit) :
    mayNotExist r = if r = .error (.xProtocol 3) then .ok () else r := by
  rcases r with e | u
  · rcases e with code | tag
    · rcases code with _ | _ | _ | _ | n <;> simp [mayNotExist]
    · simp [mayNotExist]
  · simp [mayNotExist]

/-! ## C9 -/

/-- C9, counterexample to the claimed tokenization: the parser does not
split on whitespace, only on `' '` (space).  The first
whitespace-separated token of `"close\tx"` is the known verb `close`, yet
parsing fails with `Unknown action: close\tx`. -/
theorem c9_counterexample :
    specFirstToken "close\tx" = some "close".data ∧
    eqIgnoreAsciiCase "close".data "close".data = true ∧
    Action.fromStr "close\tx" = .error "Unknown action: close\tx" := by
  decide

/-- C9, amended: the parser matches the first *space*-separated (not
whitespace-separated) non-empty token case-insensitively against the known
verbs; for an unknown first token it fails with `Unknown action: {input}`
and no tree operation is performed; in particular the control-socket
response body for input `nonsense` is exactly `"Unknown action: nonsense"`
and the manager state is returned unchanged with no X requests. -/
theorem c9_action_fromStr :
    (∀ (s : String) (p : List Char) (ps : List (List Char)),
       actionParts s = p :: ps →
       (eqIgnoreAsciiCase p "close".data = true → Action.fromStr s = .ok .close) ∧
       (eqIgnoreAsciiCase p "close".data = false →
         Action.fromStr s = .error ("Unknown action: " ++ s))) ∧
    Action.fromStr "nonsense" = .error "Unknown action: nonsense" ∧
    (∀ (cfg : XcrabConfig) (fuel : Nat) (st : XcrabWindowManager),
       onRecv cfg fuel "nonsense" st = .ok (st, [], .error "Unknown action: nonsense")) ∧
    responseBody (.error "Unknown action: nonsense") = "Unknown action: nonsense" := by
  refine ⟨?_, ?_, ?_, rfl⟩
  · intro s p ps h
    unfold Action.fromStr
    rw [h]
    constructor <;> intro hb <;> simp [hb]
  · decide
  · intro cfg fuel st
    have h : Action.fromStr "nonsense" = .error "Unknown action: nonsense" := by decide
    simp [onRecv, h]

/-- C9, witness for the amended theorem: `"CLOSE x"` parses to the `close`
verb via its first space-separated token, case-insensitively. -/
theorem c9_action_fromStr_witness :
    Action.fromStr "CLOSE x" = .ok .close :=
  ((c9_action_fromStr.1 "CLOSE x" "close".data ["x".data] (by decide)).1 (by decide))

/-! ## C10 -/

/-- Pieces of an all-space character list under `splitSpace` are all
empty. -/
theorem splitSpace_all_space :
    ∀ l : List Char, (∀ c ∈ l, c = ' ') → ∀ p ∈ splitSpace l, p = [] := by
  intro l
  induction l with
  | nil => intro _ p hp; simpa [splitSpace] using hp
  | cons c rest ih =>
    intro h p hp
    have hc : c = ' ' := h c (List.mem_cons_self _ _)
    rw [splitSpace, if_pos hc] at hp
    rcases List.mem_cons.mp hp with rfl | hp'
    · rfl
    · exact ih (fun d hd => h d (List.mem_cons_of_mem _ hd)) p hp'

/-- An all-space input produces no parts. -/
theorem actionParts_all_space (s : String) (h : ∀ c ∈ s.data, c = ' ') :
    actionParts s = [] := by
  unfold actionParts
  rw [List.filter_eq_nil_iff]
  intro p hp
  obtain ⟨q, hq, rfl⟩ := List.mem_map.mp hp
  have : q = [] := splitSpace_all_space s.data h q hq
  subst this
  simp

/-- C10: parsing an action string that is empty or consists only of the
separator character `' '` fails with the distinct error message
`"No action provided"` (not the `Unknown action` error), no action is
evaluated, and the manager state is unchanged. -/
theorem c10_no_action (s : String) (h : ∀ c ∈ s.data, c = ' ') :
    Action.fromStr s = .error "No action provided" ∧
    Action.fromStr s ≠ .error ("Unknown action: " ++ s) ∧
    (∀ (cfg : XcrabConfig) (fuel : Nat) (st : XcrabWindowManager),
      onRecv cfg fuel s st = .ok (st, [], .error "No action provided")) := by
  have hparse : Action.fromStr s = .error "No action provided" := by
    unfold Action.fromStr
    rw [actionParts_all_space s h]
  refine ⟨hparse, ?_, ?_⟩
  · rw [hparse]
    intro heq
    have hstr : "No action provided" = "Unknown action: " ++ s := by
      injection heq
    have hdata := congrArg String.data hstr
    rw [String.data_append] at hdata
    have h1 : ("No action provided".data).head? = some 'N' := rfl
    have h2 : (("Unknown action: ".data) ++ s.data).head? = some 'U' := rfl
    rw [hdata, h2] at h1
    exact absurd (Option.some.inj h1) (by decide)
  · intro cfg fuel st
    simp [onRecv, hparse]

/-- C10, witness at the all-space input `" "`. -/
theorem c10_no_action_witness :
    Action.fromStr " " = .error "No action provided" ∧
    onRecv {} 5 " " XcrabWindowManager.new =
      .ok (XcrabWindowManager.new, [], .error "No action provided") :=
  ⟨(c10_no_action " " (by decide)).1,
   (c10_no_action " " (by decide)).2.2 {} 5 XcrabWindowManager.new⟩

/-! ## Structural view of a manager state

`update_rectangle` only rewrites cached dimensions; the claims about tree
structure compare states through `structOf`, which drops cached dimensions
(and the arena's key counter) but keeps everything else: the clients map,
the focused window, and every node's key, parent and contents. -/

/-- A rect arena entry without its cached dimensions. -/
def skeletonEntry (e : XcrabKey × Rectangle) :
    XcrabKey × XcrabKey × RectangleContents :=
  (e.1, e.2.parent, e.2.contents)

/-- The structural view of a manager state: clients, focus, and the arena
up to cached dimensions. -/
def structOf (s : XcrabWindowManager) :
    List (Window × XcrabKey) × Option Window ×
      List (XcrabKey × XcrabKey × RectangleContents) :=
  (s.clients, s.focused, s.rects.map skeletonEntry)

/-! ### Association-list lemmas -/

theorem map_skel_setAssoc (k : XcrabKey) (v : Rectangle) :
    ∀ l : List (XcrabKey × Rectangle),
      (setAssoc k v l).map skeletonEntry =
        setAssoc k (v.parent, v.contents) (l.map skeletonEntry) := by
  intro l
  induction l with
  | nil => rfl
  | cons e rest ih => by_cases h : e.1 = k <;> simp [setAssoc, skeletonEntry, h, ih]

theorem setAssoc_id {β : Type} (k : Nat) (v : β) :
    ∀ l : List (Nat × β),
      l.find? (fun e => e.1 == k) = some (k, v) → setAssoc k v l = l := by
  intro l
  induction l with
  | nil => intro h; simp at h
  | cons e rest ih =>
    intro h
    by_cases hk : e.1 = k
    · rw [List.find?_cons_of_pos _ (by simpa using hk)] at h
      simp only [Option.some.injEq] at h
      simp [setAssoc, hk, ← h]
    · rw [List.find?_cons_of_neg _ (by simpa using hk)] at h
      simp [setAssoc, hk, ih h]

theorem find?_skel (k : XcrabKey) (l : List (XcrabKey × Rectangle)) :
    (l.map skeletonEntry).find? (fun e => e.1 == k) =
      (l.find? (fun e => e.1 == k)).map skeletonEntry := by
  rw [List.find?_map]
  rfl

theorem find?_skel_congr (k : XcrabKey) (l1 l2 : List (XcrabKey × Rectangle))
    (h : l1.map skeletonEntry = l2.map skeletonEntry) :
    (l1.find? (fun e => e.1 == k)).map skeletonEntry =
      (l2.find? (fun e => e.1 == k)).map skeletonEntry := by
  rw [← find?_skel, ← find?_skel, h]

theorem filter_key_eq_self {β : Type} (k : Nat) (l : List (Nat × β))
    (h : ∀ e ∈ l, e.1 ≠ k) : l.filter (fun e => e.1 != k) = l := by
  rw [List.filter_eq_self]
  intro e he
  simpa using h e he

theorem find?_filter_key {β : Type} (k : Nat) (l : List (Nat × β)) :
    (l.filter (fun e => e.1 != k)).find? (fun e => e.1 == k) = none := by
  rw [List.find?_eq_none]
  intro e he
  have := (List.mem_filter.mp he).2
  simpa using this

theorem setAssoc_append_left {β : Type} (k : Nat) (v : β) :
    ∀ l l' : List (Nat × β),
      (l.find? (fun e => e.1 == k)).isSome →
      setAssoc k v (l ++ l') = setAssoc k v l ++ l' := by
  intro l
  induction l with
  | nil => intro l' h; simp at h
  | cons e rest ih =>
    intro l' h
    by_cases hk : e.1 = k
    · simp [setAssoc, hk]
    · rw [List.find?_cons_of_neg _ (by simpa using hk)] at h
      simp [setAssoc, hk, ih l' h]

theorem find?_setAssoc_self {β : Type} (k : Nat) (v : β) :
    ∀ l : List (Nat × β),
      (l.find? (fun e => e.1 == k)).isSome →
      (setAssoc k v l).find? (fun e => e.1 == k) = some (k, v) := by
  intro l
  induction l with
  | nil => intro h; simp at h
  | cons e rest ih =>
    intro h
    by_cases hk : e.1 = k
    · simp [setAssoc, hk]
    · rw [List.find?_cons_of_neg _ (by simpa using hk)] at h
      rw [setAssoc, if_neg hk, List.find?_cons_of_neg _ (by simpa using hk)]
      exact ih h

theorem find?_cons_true {α : Type} (p : α → Bool) (a : α) (l : List α)
    (h : p a = true) : (a :: l).find? p = some a := by
  rw [List.find?_cons, h]

theorem find?_cons_false {α : Type} (p : α → Bool) (a : α) (l : List α)
    (h : p a = false) : (a :: l).find? p = l.find? p := by
  rw [List.find?_cons, h]

theorem find?_setAssoc_ne {β : Type} (k k' : Nat) (v : β) (hne : k ≠ k') :
    ∀ l : List (Nat × β),
      (setAssoc k' v l).find? (fun e => e.1 == k) =
        l.find? (fun e => e.1 == k) := by
  intro l
  induction l with
  | nil => rfl
  | cons e rest ih =>
    by_cases hk : e.1 = k'
    · rw [setAssoc, if_pos hk,
        find?_cons_false (fun e => e.1 == k) (k', v) rest
          (by simpa using Ne.symm hne),
        find?_cons_false (fun e => e.1 == k) e rest
          (by simp only [hk, beq_eq_false_iff_ne, ne_eq]; exact Ne.symm hne)]
    · rw [setAssoc, if_neg hk]
      by_cases hek : e.1 = k
      · rw [find?_cons_true (fun e => e.1 == k) e (setAssoc k' v rest)
            (by simpa using hek),
          find?_cons_true (fun e => e.1 == k) e rest (by simpa using hek)]
      · rw [find?_cons_false (fun e => e.1 == k) e (setAssoc k' v rest)
            (by simpa using hek),
          find?_cons_false (fun e => e.1 == k) e rest (by simpa using hek), ih]

theorem insertIdx_filter_ne (k : Nat) :
    ∀ (n : Nat) (l : List Nat),
      (l.insertIdx n k).filter (fun v => v != k) = l.filter (fun v => v != k) := by
  intro n
  induction n with
  | zero => intro l; simp [List.insertIdx_zero]
  | succ n ih =>
    intro l
    cases l with
    | nil => simp [List.insertIdx_succ_nil]
    | cons x xs => simp [List.insertIdx_succ_cons, List.filter_cons, ih]

theorem filter_ne_eq_self (k : Nat) (l : List Nat) (h : k ∉ l) :
    l.filter (fun v => v != k) = l := by
  rw [List.filter_eq_self]
  intro v hv
  simp only [bne_iff_ne, ne_eq]
  intro hvk
  exact h (hvk ▸ hv)

theorem map_skel_filter_key (k : XcrabKey) :
    ∀ l : List (XcrabKey × Rectangle),
      (l.filter (fun e => e.1 != k)).map skeletonEntry =
        (l.map skeletonEntry).filter (fun e => e.1 != k) := by
  intro l
  induction l with
  | nil => rfl
  | cons e rest ih =>
    by_cases hk : e.1 = k <;>
      simp [List.filter_cons, skeletonEntry, hk, ih]

/-! ### `update_rectangle` preserves structure -/

/-- Writing only the cached dimensions of an existing rect does not change
the structural view. -/
theorem structOf_setRect_dims (s : XcrabWindowManager) (k : XcrabKey)
    (rect : Rectangle) (d : Dimensions) (h : s.lookupRect k = some rect) :
    structOf (s.setRect k { rect with cachedDimensions := d }) = structOf s := by
  obtain ⟨e, he, he2⟩ := Option.map_eq_some'.mp h
  have hek : e.1 = k := by simpa using List.find?_some he
  have h3 : (setAssoc k { rect with cachedDimensions := d } s.rects).map
      skeletonEntry = s.rects.map skeletonEntry := by
    rw [map_skel_setAssoc]
    apply setAssoc_id
    rw [find?_skel, he]
    simp only [Option.map_some', Option.some.injEq, skeletonEntry]
    rw [hek, he2]
  show (s.clients, s.focused,
      (setAssoc k { rect with cachedDimensions := d } s.rects).map skeletonEntry) =
    (s.clients, s.focused, s.rects.map skeletonEntry)
  rw [h3]

/-- One-step unfolding of `updateChildren` at positive fuel. -/
theorem updateChildren_succ (cfg : XcrabConfig) (fuel : Nat) (s : XcrabWindowManager) :
    (updateChildren cfg (fuel + 1) s [] = .ok (s, [])) ∧
    (∀ k d rest, updateChildren cfg (fuel + 1) s ((k, d) :: rest) = do
      let (s1, t1) ← updateRectangle cfg fuel s k (some d)
      let (s2, t2) ← updateChildren cfg fuel s1 rest
      .ok (s2, t1 ++ t2)) :=
  ⟨rfl, fun _ _ _ => rfl⟩

/-- `updateRectangle`/`updateChildren` touch only cached dimensions: a
successful run returns a state with the same structural view. -/
theorem updateRectangle_structOf (cfg : XcrabConfig) :
    ∀ fuel : Nat,
      (∀ s k d r, updateRectangle cfg fuel s k d = .ok r →
        structOf r.1 = structOf s) ∧
      (∀ s tasks r, updateChildren cfg fuel s tasks = .ok r →
        structOf r.1 = structOf s) := by
  intro fuel
  induction fuel with
  | zero =>
    constructor
    · intro s k d r h; simp [updateRectangle] at h
    · intro s tasks r h; simp [updateChildren] at h
  | succ fuel ih =>
    constructor
    · intro s k d r h
      rw [updateRectangle] at h
      split at h
      · exact absurd h (by simp)
      · rename_i rect hl
        split at h
        · rename_i children dir
          split at h
          · injection h with h
            rw [← h]
            exact structOf_setRect_dims s k rect _ hl
          · rw [ih.2 _ _ _ h]
            exact structOf_setRect_dims s k rect _ hl
        · rename_i cl
          dsimp only at h
          split at h
          · exact absurd h (by simp)
          · injection h with h
            rw [← h]
            exact structOf_setRect_dims s k rect _ hl
    · intro s tasks r h
      cases tasks with
      | nil =>
        rw [(updateChildren_succ cfg fuel s).1] at h
        injection h with h
        rw [← h]
      | cons t rest =>
        obtain ⟨k2, d2⟩ := t
        rw [(updateChildren_succ cfg fuel s).2 k2 d2 rest] at h
        simp only [bind, Except.bind] at h
        split at h
        · exact absurd h (by simp)
        · rename_i r1 h1
          split at h
          · exact absurd h (by simp)
          · rename_i r2 h2
            injection h with h
            have e2 : structOf r2.1 = structOf r1.1 := ih.2 _ _ _ h2
            have e1 : structOf r1.1 = structOf s := ih.1 _ _ _ _ h1
            rw [← h]
            exact e2.trans e1

/-! ## C3 -/

/-- The manager state after adopting a single window (window 10, frame
100) into the empty manager: the state on which the spec's "remove the
only remaining window" boundary case runs. -/
def c3afterFirstAdd : Except OpError (XcrabWindowManager × List XRequest) :=
  addClient {} 10 XcrabWindowManager.new 10 100 ⟨0, 0, 1920, 1080⟩

/-- C3: refuted by evaluation — on the state reached by adding one client
to the empty manager (a self-parented root *leaf*, window 10 the only
client and focused), `remove_client(10)` does not return with `focused =
None`: it panics.  The root leaf's `parent` is itself, so
`self.rects.get_mut(parent_key).unwrap().unwrap_pane_mut()` hits the
`unreachable!()` in `Rectangle::unwrap_pane_mut` (`src/x11/client.rs`
lines 114-119, called from line 544), modelled as `OpError.panicked`. -/
theorem c3_remove_last_window_panics :
    (c3afterFirstAdd.map (fun r => (r.1.clients.map (·.1), r.1.focused))) =
      .ok ([10], some 10) ∧
    (c3afterFirstAdd.map (fun r => removeClient {} 10 r.1 10)) =
      .ok (.error .panicked) := by
  decide

/-! ## C2 -/

/-- The round trip of the spec's claim: from the reachable single-client
state (window 10), `add_client(11)` followed by `remove_client(11)`.
Returns the pre-state and the post-state. -/
def c2roundTrip : Except OpError (XcrabWindowManager × XcrabWindowManager) := do
  let (s1, _) ← addClient {} 10 XcrabWindowManager.new 10 100 ⟨0, 0, 1920, 1080⟩
  let (s2, _) ← addClient {} 10 s1 11 101 ⟨0, 0, 1920, 1080⟩
  let (s3, _) ← removeClient {} 10 s2 11
  return (s1, s3)

set_option maxHeartbeats 1600000 in
/-- C2, counterexample: `add_client(11); remove_client(11)` on the
reachable one-client state does not restore the node structure.  The
insertion wraps the root leaf in a fresh horizontal pane
(`insert_pane_above`) and the removal never collapses single-child panes
(the source's own `TODO` at `src/x11/client.rs` line 560), so the arena
grows from 1 node (no panes) to 2 nodes (one pane): the same leaf now sits
under a pane that was not there before, refuting "same leaves in the same
positions under the same pane structure" — even though `clients` and
`focused` are restored. -/
theorem c2_counterexample :
    (c2roundTrip.map (fun p => p.1.rects.length)) = .ok 1 ∧
    (c2roundTrip.map (fun p => p.2.rects.length)) = .ok 2 ∧
    (c2roundTrip.map (fun p => p.1.rects.countP
      (fun e => match e.2.contents with
        | .pane _ _ => true
        | .client _ => false))) = .ok 0 ∧
    (c2roundTrip.map (fun p => p.2.rects.countP
      (fun e => match e.2.contents with
        | .pane _ _ => true
        | .client _ => false))) = .ok 1 ∧
    (c2roundTrip.map (fun p => decide (structOf p.1 = structOf p.2))) = .ok false ∧
    (c2roundTrip.map (fun p =>
      decide (p.1.clients = p.2.clients) && decide (p.1.focused = p.2.focused)))
      = .ok true := by
  decide

/-! ## C8 -/

/-- Inversion for a successful `Except.map`. -/
theorem exceptMap_ok_iff {ε α β : Type} (f : α → β) (x : Except ε α) (r : β) :
    x.map f = .ok r ↔ ∃ a, x = .ok a ∧ f a = r := by
  cases x <;> simp [Except.map]

/-- A successful `remove_client(win)` removes `win` from `clients` and
removes its node from the arena. -/
theorem removeClient_removes (cfg : XcrabConfig) (fuel : Nat)
    (s : XcrabWindowManager) (win : Window) (r : XcrabWindowManager × List XRequest)
    (h : removeClient cfg fuel s win = .ok r) :
    r.1.lookupClient win = none ∧
    (∀ ck, s.lookupClient win = some ck → r.1.lookupRect ck = none) := by
  unfold removeClient at h
  split at h
  · exact absurd h (by simp)
  · rename_i clientKey hck
    split at h
    · exact absurd h (by simp)
    · rename_i client hrect
      split at h
      · exact absurd h (by simp)
      · rename_i fr hcontents
        dsimp only at h
        split at h
        · exact absurd h (by simp)
        · rename_i parent hparent
          split at h
          · exact absurd h (by simp)
          · rename_i children pdir hpcontents
            split at h
            · exact absurd h (by simp)
            · rename_i f hfoc
              -- in both focus branches the state passed to
              -- `updateRectangle` has the filtered clients and rects
              have key : ∀ (sx : XcrabWindowManager) (u : XcrabWindowManager × List XRequest),
                  updateRectangle cfg fuel sx client.parent none = .ok u →
                  sx.clients = ((s.setRect client.parent
                    ⟨parent.parent, parent.cachedDimensions,
                      .pane (children.filter (fun v => v != clientKey)) pdir⟩
                    ).clients).filter (fun e => e.1 != win) →
                  sx.rects = ((((s.setRect client.parent
                    ⟨parent.parent, parent.cachedDimensions,
                      .pane (children.filter (fun v => v != clientKey)) pdir⟩
                    ).removeClientEntry win).rects).filter (fun e => e.1 != clientKey)) →
                  u.1.lookupClient win = none ∧
                  (∀ ck, s.lookupClient win = some ck → u.1.lookupRect ck = none) := by
                intro sx u hu hcl hre
                have hpres := (updateRectangle_structOf cfg fuel).1 _ _ _ _ hu
                have hclients : u.1.clients = sx.clients :=
                  congrArg (fun t => t.1) hpres
                have hrects : u.1.rects.map skeletonEntry =
                    sx.rects.map skeletonEntry :=
                  congrArg (fun t => t.2.2) hpres
                constructor
                · show (u.1.clients.find? (fun e => e.1 == win)).map (·.2) = none
                  rw [hclients, hcl, find?_filter_key]
                  rfl
                · intro ck hck2
                  have hckeq : ck = clientKey := by
                    rw [hck] at hck2
                    exact (Option.some.inj hck2).symm
                  subst hckeq
                  show (u.1.rects.find? (fun e => e.1 == ck)).map (·.2) = none
                  have htrans := find?_skel_congr ck u.1.rects sx.rects hrects
                  rw [hre, find?_filter_key] at htrans
                  simp only [Option.map_none'] at htrans
                  rw [Option.map_eq_none'.mp htrans]
                  rfl
              split at h
              · -- the removed window was focused
                rw [exceptMap_ok_iff] at h
                obtain ⟨u, hu, hr⟩ := h
                have hres := key _ u hu rfl rfl
                rw [← hr]
                exact hres
              · -- some other window was focused
                rw [exceptMap_ok_iff] at h
                obtain ⟨u, hu, hr⟩ := h
                have hres := key _ u hu rfl rfl
                rw [← hr]
                exact hres

/-- C8: `destroy_focused_client` is a successful no-op when nothing is
focused; when `focused = Some w` and it succeeds, the trace is exactly the
trace of `remove_client(w)` followed by one `kill_client` on the frame
remembered from `w`'s leaf *before* the removal — so by the time the kill
is issued, `w` is already gone from `clients` and its node from the
arena. -/
theorem c8_destroy_focused (cfg : XcrabConfig) (fuel : Nat)
    (s : XcrabWindowManager) :
    (s.focused = none → destroyFocusedClient cfg fuel s = .ok (s, [])) ∧
    (∀ w s' tr, s.focused = some w →
      destroyFocusedClient cfg fuel s = .ok (s', tr) →
      ∃ ck fr, s.lookupClient w = some ck ∧
        (s.lookupRect ck).map (·.contents) = some (.client fr) ∧
        removeClient cfg fuel s w = .ok (s', tr.dropLast) ∧
        tr = tr.dropLast ++ [.killClient fr] ∧
        s'.lookupClient w = none ∧
        s'.lookupRect ck = none) := by
  constructor
  · intro hf
    unfold destroyFocusedClient
    rw [hf]
  · intro w s' tr hf h
    unfold destroyFocusedClient at h
    split at h
    · rename_i heq
      rw [hf] at heq
      exact absurd heq (by simp)
    · rename_i focused heq
      rw [hf] at heq
      injection heq with heq
      subst heq
      split at h
      · exact absurd h (by simp)
      · rename_i ck hck
        split at h
        · exact absurd h (by simp)
        · rename_i rect hrect
          split at h
          · exact absurd h (by simp)
          · rename_i fr hcontents
            rw [exceptMap_ok_iff] at h
            obtain ⟨⟨rs, rt⟩, hu, hr⟩ := h
            obtain ⟨hr1, hr2⟩ := Prod.mk.injEq .. ▸ hr
            subst hr1
            subst hr2
            have hdrop : (rt ++ [XRequest.killClient fr]).dropLast = rt :=
              List.dropLast_concat
            have hrem := removeClient_removes cfg fuel s w (rs, rt) hu
            refine ⟨ck, fr, hck, ?_, ?_, ?_, hrem.1, hrem.2 ck hck⟩
            · simp [hrect, hcontents]
            · rw [hdrop]
              exact hu
            · rw [hdrop]

/-- The pre-state for the C8 witness: a pane root whose only child is the
focused client window 10 (frame 100). -/
def c8state : XcrabWindowManager :=
  ⟨[(10, 0)],
   [(1, ⟨1, ⟨0, 0, 500, 500⟩, .pane [0] .horizontal⟩),
    (0, ⟨1, ⟨0, 0, 500, 500⟩, .client ⟨100, 10⟩⟩)],
   2, some 10⟩

/-- The state `destroy_focused_client` leaves behind on `c8state`. -/
def c8finalState : XcrabWindowManager :=
  ⟨[], [(1, ⟨1, ⟨0, 0, 500, 500⟩, .pane [] .horizontal⟩)], 2, none⟩

/-- The trace `destroy_focused_client` produces on `c8state`. -/
def c8trace : List XRequest :=
  [.unframe ⟨100, 10⟩, .setInputFocus none, .killClient ⟨100, 10⟩]

/-- C8, witness: the theorem applied to the concrete one-client state. -/
theorem c8_destroy_focused_witness :
    ∃ ck fr, c8state.lookupClient 10 = some ck ∧
      (c8state.lookupRect ck).map (·.contents) = some (.client fr) ∧
      removeClient {} 10 c8state 10 = .ok (c8finalState, c8trace.dropLast) ∧
      c8trace = c8trace.dropLast ++ [.killClient fr] ∧
      c8finalState.lookupClient 10 = none ∧
      c8finalState.lookupRect ck = none :=
  (c8_destroy_focused {} 10 c8state).2 10 c8finalState c8trace rfl (by decide)

/-! ## C2, amended round trip -/

/-- `HashMap::insert` of a fresh key appends. -/
theorem insertClient_fresh (st : XcrabWindowManager) (w : Window) (k : XcrabKey)
    (h : st.clients.find? (fun e => e.1 == w) = none) :
    st.insertClient w k = { st with clients := st.clients ++ [(w, k)] } := by
  unfold XcrabWindowManager.insertClient
  rw [h]
  simp

theorem setAssoc_keys {β : Type} (k : Nat) (v : β) :
    ∀ l : List (Nat × β), (setAssoc k v l).map (·.1) = l.map (·.1) := by
  intro l
  induction l with
  | nil => rfl
  | cons e rest ih => by_cases h : e.1 = k <;> simp [setAssoc, h, ih]

theorem setAssoc_setAssoc {β : Type} (k : Nat) (a b : β) :
    ∀ l : List (Nat × β), setAssoc k a (setAssoc k b l) = setAssoc k a l := by
  intro l
  induction l with
  | nil => rfl
  | cons e rest ih =>
    by_cases h : e.1 = k
    · simp [setAssoc, h]
    · simp [setAssoc, h, ih]

theorem map_skel_keys :
    ∀ l : List (XcrabKey × Rectangle),
      (l.map skeletonEntry).map (·.1) = l.map (·.1) := by
  intro l
  induction l with
  | nil => rfl
  | cons e rest ih => simp [skeletonEntry, ih]

/-- C2, amended: when the upward search of `add_client(w)` finds an
existing pane of the target directionality without modifying the state (no
wrapping pane is created), `w` is not yet a client, the arena's next key is
fresh, and the focused window is the first entry of the clients map (the
code re-focuses `clients.keys().next()`, whose order a `HashMap` leaves
unspecified), then `add_client(w); remove_client(w)` restores `clients`,
`focused`, and the nodes up to cached dimensions and the arena's key
counter.  (When the search instead wraps the root in a new pane, the pane
survives the removal and the structure is not restored — see the
counterexample.) -/
theorem c2_roundtrip
    (cfg : XcrabConfig) (fuel : Nat) (s : XcrabWindowManager)
    (w fw : Window) (rg : Dimensions)
    (f0 : Window) (k0 p c : XcrabKey)
    (pr : Rectangle) (children : List XcrabKey) (pdir : Directionality)
    (idx : Nat) (s1 s2 : XcrabWindowManager) (tr1 tr2 : List XRequest)
    (hfoc : s.focused = some f0)
    (hck : s.lookupClient f0 = some k0)
    (hloop : findPaneLoop fuel s k0 (targetDirectionality .right) = .ok (p, c, s))
    (hp : s.lookupRect p = some pr)
    (hpc : pr.contents = .pane children pdir)
    (hidx : children.findIdx? (fun v => v == c) = some idx)
    (hfresh : ∀ e ∈ s.rects, e.1 ≠ s.nextKey)
    (hfreshc : s.nextKey ∉ children)
    (hw : s.lookupClient w = none)
    (hhead : (s.clients.map (·.1)).head? = some f0)
    (hadd : addClientDirection cfg fuel s w fw .right rg = .ok (s1, tr1))
    (hrem : removeClient cfg fuel s1 w = .ok (s2, tr2)) :
    structOf s2 = structOf s := by
  have hfindw : s.clients.find? (fun e => e.1 == w) = none :=
    Option.map_eq_none'.mp hw
  obtain ⟨ep, hep, hep2⟩ := Option.map_eq_some'.mp hp
  have hpkey : ep.1 = p := by simpa using List.find?_some hep
  have hpnk : p ≠ s.nextKey := hpkey ▸ hfresh ep (List.mem_of_find?_eq_some hep)
  have hrectsnk : s.rects.find? (fun e => e.1 == s.nextKey) = none :=
    List.find?_eq_none.mpr (fun e he => by simpa using hfresh e he)
  unfold addClientDirection at hadd
  split at hadd
  · rename_i heq
    rw [hfoc] at heq
    exact absurd heq (by simp)
  · rename_i focused heq
    rw [hfoc] at heq
    injection heq with heq
    subst heq
    split at hadd
    · rename_i heq2
      rw [hck] at heq2
      exact absurd heq2 (by simp)
    · rename_i fck heq2
      rw [hck] at heq2
      injection heq2 with heq2
      subst heq2
      split at hadd
      · rename_i e heq3
        rw [hloop] at heq3
        exact absurd heq3 (by simp)
      · rename_i parentKey childKey snew heq3
        rw [hloop] at heq3
        injection heq3 with heq3
        have hp1 : p = parentKey := congrArg (fun t => t.1) heq3
        have hc1 : c = childKey := congrArg (fun t => t.2.1) heq3
        have hs1 : s = snew := congrArg (fun t => t.2.2) heq3
        subst hp1
        subst hc1
        subst hs1
        have hpA : ∀ R : Rectangle, (s.insertRect R).2.lookupRect p = some pr := by
          intro R
          show ((s.rects ++ [(s.nextKey, R)]).find? (fun e => e.1 == p)).map (·.2) =
            some pr
          rw [List.find?_append, hep]
          simp [hep2]
        dsimp only at hadd
        split at hadd
        · rename_i heq4
          exact absurd ((hpA _).symm.trans heq4) (by simp)
        · rename_i parentRect heq4
          have hpr2 := Option.some.inj ((hpA _).symm.trans heq4)
          subst hpr2
          split at hadd
          · rename_i frx heq5
            rw [hpc] at heq5
            exact absurd heq5 (by simp)
          · rename_i children2 pdir2 heq5
            rw [hpc] at heq5
            injection heq5 with hch hpd
            subst hch
            subst hpd
            split at hadd
            · rename_i heq6
              rw [hidx] at heq6
              exact absurd heq6 (by simp)
            · rename_i idx2 heq6
              rw [hidx] at heq6
              injection heq6 with heq6
              subst heq6
              rw [insertClient_fresh _ w _ (by exact hfindw)] at hadd
              unfold focusUpdateMap at hadd
              rw [exceptMap_ok_iff] at hadd
              obtain ⟨u, hu, hru⟩ := hadd
              have hs1u : s1 = u.1 := (congrArg (fun t => t.1) hru).symm
              have hpres := (updateRectangle_structOf cfg fuel).1 _ _ _ _ hu
              have hs1clients : s1.clients = s.clients ++ [(w, s.nextKey)] := by
                rw [hs1u]
                exact congrArg (fun t => t.1) hpres
              have hs1foc : s1.focused = some w := by
                rw [hs1u]
                exact congrArg (fun t => t.2.1) hpres
              have hs1rects : s1.rects.map skeletonEntry =
                  (setAssoc p
                    ⟨pr.parent, pr.cachedDimensions,
                      .pane (children.insertIdx (idx + 1) s.nextKey) pdir⟩
                    (s.rects ++ [(s.nextKey,
                      (⟨p, default, .client ⟨fw, w⟩⟩ : Rectangle))])).map
                    skeletonEntry := by
                rw [hs1u]
                exact congrArg (fun t => t.2.2) hpres
              have hlc1 : s1.lookupClient w = some s.nextKey := by
                show (s1.clients.find? (fun e => e.1 == w)).map (·.2) =
                  some s.nextKey
                rw [hs1clients, List.find?_append, hfindw]
                simp [List.find?_cons]
              have htk := find?_skel_congr s.nextKey s1.rects _ hs1rects
              rw [find?_setAssoc_ne s.nextKey p _ (fun hh => hpnk hh.symm),
                List.find?_append, hrectsnk] at htk
              simp only [Option.none_or] at htk
              rw [find?_cons_true (fun e : XcrabKey × Rectangle => e.1 == s.nextKey)
                (s.nextKey, (⟨p, default, .client ⟨fw, w⟩⟩ : Rectangle)) []
                (by simp)] at htk
              -- htk : (s1.rects.find? (·.1 == nextKey)).map skel
              --       = some (nextKey, p, client ⟨fw, w⟩)
              obtain ⟨er, her, herskel⟩ := Option.map_eq_some'.mp htk
              have herparent : er.2.parent = p :=
                congrArg (fun t => t.2.1) herskel
              have hercontents : er.2.contents =
                  .client ⟨fw, w⟩ :=
                congrArg (fun t => t.2.2) herskel
              have hlrk : s1.lookupRect s.nextKey = some er.2 := by
                show (s1.rects.find? (fun e => e.1 == s.nextKey)).map (·.2) =
                  some er.2
                rw [her]
                rfl
              have htp := find?_skel_congr p s1.rects _ hs1rects
              rw [find?_setAssoc_self p _ _
                (by rw [List.find?_append, hep]; simp)] at htp
              simp only [Option.map_some'] at htp
              obtain ⟨erp, herp, herpskel⟩ := Option.map_eq_some'.mp htp
              have herpparent : erp.2.parent = pr.parent :=
                congrArg (fun t => t.2.1) herpskel
              have herpcontents : erp.2.contents =
                  .pane (children.insertIdx (idx + 1) s.nextKey) pdir :=
                congrArg (fun t => t.2.2) herpskel
              have hlrp : s1.lookupRect p = some erp.2 := by
                show (s1.rects.find? (fun e => e.1 == p)).map (·.2) = some erp.2
                rw [herp]
                rfl
              unfold removeClient at hrem
              split at hrem
              · rename_i heqA
                rw [hlc1] at heqA
                exact absurd heqA (by simp)
              · rename_i ckey heqA
                rw [hlc1] at heqA
                injection heqA with heqA
                subst heqA
                split at hrem
                · rename_i heqB
                  rw [hlrk] at heqB
                  exact absurd heqB (by simp)
                · rename_i clientRect heqB
                  rw [hlrk] at heqB
                  injection heqB with heqB
                  subst heqB
                  split at hrem
                  · rename_i chs dirx heqC
                    rw [hercontents] at heqC
                    exact absurd heqC (by simp)
                  · rename_i frx heqC
                    rw [hercontents] at heqC
                    injection heqC with heqC
                    subst heqC
                    rw [herparent] at hrem
                    dsimp only at hrem
                    split at hrem
                    · rename_i heqD
                      rw [hlrp] at heqD
                      exact absurd heqD (by simp)
                    · rename_i parentRect2 heqD
                      rw [hlrp] at heqD
                      injection heqD with heqD
                      subst heqD
                      split at hrem
                      · rename_i frx2 heqE
                        rw [herpcontents] at heqE
                        exact absurd heqE (by simp)
                      · rename_i children3 pdir3 heqE
                        rw [herpcontents] at heqE
                        injection heqE with hch3 hpd3
                        subst hch3
                        subst hpd3
                        split at hrem
                        · rename_i heqF
                          exact absurd (hs1foc.symm.trans heqF) (by simp)
                        · rename_i f heqF
                          have hfw2 : f = w :=
                            (Option.some.inj (hs1foc.symm.trans heqF)).symm
                          split at hrem
                          · rw [exceptMap_ok_iff] at hrem
                            obtain ⟨u2, hu2, hru2⟩ := hrem
                            have hs2u : s2 = u2.1 :=
                              (congrArg (fun t => t.1) hru2).symm
                            have hpres2 :=
                              (updateRectangle_structOf cfg fuel).1 _ _ _ _ hu2
                            have hclfin : s1.clients.filter (fun e => e.1 != w) =
                                s.clients := by
                              rw [hs1clients, List.filter_append,
                                filter_key_eq_self w s.clients
                                  (fun e he => by
                                    have := List.find?_eq_none.mp hfindw e he
                                    simpa using this)]
                              simp
                            have hchr : (children.insertIdx (idx + 1)
                                s.nextKey).filter (fun v => v != s.nextKey) =
                                children := by
                              rw [insertIdx_filter_ne]
                              exact filter_ne_eq_self _ _ hfreshc
                            have hsomeP : ((s.rects.map skeletonEntry).find?
                                (fun e => e.1 == p)).isSome := by
                              rw [find?_skel, hep]
                              rfl
                            have hMp2 : (s.rects.map skeletonEntry).find?
                                (fun e => e.1 == p) =
                                some (p, (pr.parent,
                                  RectangleContents.pane children pdir)) := by
                              rw [find?_skel, hep]
                              simp [skeletonEntry, hpkey, hep2, hpc]
                            have hrectsfin : ((setAssoc p
                                (⟨erp.2.parent, erp.2.cachedDimensions,
                                  .pane ((children.insertIdx (idx + 1)
                                    s.nextKey).filter
                                    (fun v => v != s.nextKey)) pdir⟩ : Rectangle)
                                s1.rects).filter
                                (fun e => e.1 != s.nextKey)).map skeletonEntry =
                                s.rects.map skeletonEntry := by
                              rw [map_skel_filter_key, map_skel_setAssoc,
                                hs1rects, map_skel_setAssoc, setAssoc_setAssoc,
                                List.map_append]
                              simp only [List.map_cons, List.map_nil]
                              rw [herpparent, hchr]
                              rw [setAssoc_append_left _ _ _ _ hsomeP]
                              rw [setAssoc_id p (pr.parent,
                                RectangleContents.pane children pdir) _ hMp2]
                              rw [List.filter_append]
                              rw [filter_key_eq_self _ _
                                (fun e he => by
                                  obtain ⟨e', he', hee⟩ := List.mem_map.mp he
                                  have : e.1 = e'.1 := by rw [← hee]; rfl
                                  rw [this]
                                  exact hfresh e' he')]
                              simp [skeletonEntry]
                            have hfinal : structOf u2.1 = structOf s := by
                              rw [hpres2]
                              show (s1.clients.filter (fun e => e.1 != w),
                                  ((s1.clients.filter
                                    (fun e => e.1 != w)).map (·.1)).head?,
                                  ((setAssoc p
                                    (⟨erp.2.parent, erp.2.cachedDimensions,
                                      .pane ((children.insertIdx (idx + 1)
                                        s.nextKey).filter
                                        (fun v => v != s.nextKey)) pdir⟩ :
                                      Rectangle)
                                    s1.rects).filter
                                    (fun e => e.1 != s.nextKey)).map
                                    skeletonEntry) =
                                (s.clients, s.focused, s.rects.map skeletonEntry)
                              rw [hclfin, hhead, hrectsfin, hfoc]
                            rw [hs2u]
                            exact hfinal
                          · rename_i hne
                            exact absurd hfw2 hne

/-- Witness pre-state: a horizontal pane root with two client leaves
(windows 10 and 11), window 10 focused and first in the clients map. -/
def c2wState : XcrabWindowManager :=
  ⟨[(10, 0), (11, 2)],
   [(0, ⟨1, ⟨20, 20, 930, 1040⟩, .client ⟨100, 10⟩⟩),
    (1, ⟨1, ⟨20, 20, 1880, 1040⟩, .pane [0, 2] .horizontal⟩),
    (2, ⟨1, ⟨970, 20, 930, 1040⟩, .client ⟨101, 11⟩⟩)],
   3, some 10⟩

def c2wAdd : Except OpError (XcrabWindowManager × List XRequest) :=
  addClientDirection {} 20 c2wState 12 102 .right ⟨0, 0, 1920, 1080⟩

def c2wS1 : XcrabWindowManager :=
  match c2wAdd with
  | .ok r => r.1
  | .error _ => default

def c2wTr1 : List XRequest :=
  match c2wAdd with
  | .ok r => r.2
  | .error _ => []

def c2wRem : Except OpError (XcrabWindowManager × List XRequest) :=
  removeClient {} 20 c2wS1 12

def c2wS2 : XcrabWindowManager :=
  match c2wRem with
  | .ok r => r.1
  | .error _ => default

def c2wTr2 : List XRequest :=
  match c2wRem with
  | .ok r => r.2
  | .error _ => []

/-- C2, witness for the amended round-trip theorem at `c2wState`:
adding window 12 to the right and removing it restores the structural
view. -/
theorem c2_roundtrip_witness : structOf c2wS2 = structOf c2wState :=
  c2_roundtrip {} 20 c2wState 12 102 ⟨0, 0, 1920, 1080⟩ 10 0 1 0
    ⟨1, ⟨20, 20, 1880, 1040⟩, .pane [0, 2] .horizontal⟩ [0, 2] .horizontal 0
    c2wS1 c2wS2 c2wTr1 c2wTr2 rfl rfl (by decide) rfl rfl (by decide)
    (by decide) (by decide) rfl rfl (by decide) (by decide)

end Xcrab
